import Mathlib

/-!
Shallow embedding of `src/server.py`, the connection-multiplexing chat server.

Modelling conventions:
* A socket handle is a `Nat`.
* The module-level mutable globals (`_names`, `users`, `sent_messages`, the
  read-selector registrations) are gathered in `ServerState`, together with a
  chronological trace of every `send(...)` performed (`writes`) and the set of
  closed handles (`closed`).
* Transport writes may fail; a run is parameterised by `sendFails : Socket → Bool`
  saying which handles raise on `send`.  A raised Python exception is modelled by
  `PyResult.exn`, which carries the global state at the moment of the raise
  (mutations already performed persist, as they do for Python globals).
* `socket.recv(4096)` returns one chunk of at most 4096 bytes; an event-loop
  read event is modelled by `get_message_step` applied to the chunk the
  transport delivered.  `recvChunks` models how a longer pending payload is cut
  into successive `recv(4096)` results.
* `User` and `Message` are Python dataclasses whose fields are never reassigned
  anywhere in `server.py`; a reference to such an object is therefore
  observationally an immutable value, and is embedded as one.
-/

set_option linter.unusedVariables false

abbrev Socket := Nat

/-- Mirrors `class User` (fields `client_socket`, `name`). -/
structure User where
  client_socket : Socket
  name : String
deriving DecidableEq

/-- Mirrors `class Message` (fields `body`, `sender`). -/
structure Message where
  body : String
  sender : User
deriving DecidableEq

/-- The module-level mutable state of `server.py`, plus the transport trace. -/
structure ServerState where
  names : List String
  users : List User
  sent_messages : List Message
  registered : List Socket
  writes : List (Socket × String)
  closed : List Socket
deriving DecidableEq

/-- Python exceptions that can escape the handlers we model. -/
inductive PyErr where
  | sendError
  | keyError
  | indexError
deriving DecidableEq

/-- Result of running one handler body: normal return, or an escaping
exception together with the global state at the moment of the raise. -/
inductive PyResult where
  | ok (s : ServerState)
  | exn (e : PyErr) (s : ServerState)
deriving DecidableEq

def PyResult.state : PyResult → ServerState
  | .ok s => s
  | .exn _ s => s

def PyResult.isOk : PyResult → Bool
  | .ok _ => true
  | .exn _ _ => false

/-- Run the next statement unless an exception is already propagating:
this is how consecutive Python statements compose. -/
def PyResult.andThen (r : PyResult) (f : ServerState → PyResult) : PyResult :=
  match r with
  | .ok s => f s
  | .exn e s => .exn e s

/-- The startup state: `_names = ["John", "Jill", "Smith", "Bella"]`,
everything else empty. -/
def initState : ServerState :=
  { names := ["John", "Jill", "Smith", "Bella"]
    users := []
    sent_messages := []
    registered := []
    writes := []
    closed := [] }

/-- Mirrors `check_free_positions`: `len(_names) != 0`. -/
def check_free_positions (s : ServerState) : Bool :=
  s.names.length != 0

/-- Python `list.pop()`: removes and returns the LAST element; `none` models
the `IndexError` raised on an empty list. -/
def pop_last : List String → Option (String × List String)
  | [] => none
  | [x] => some (x, [])
  | x :: y :: xs =>
    match pop_last (y :: xs) with
    | some (z, rest) => some (z, x :: rest)
    | none => none

/-- Mirrors `_create_user`: `name = _names.pop()` then build the `User`;
also returns the remaining pool. -/
def create_user (client_socket : Socket) (names : List String) :
    Option (User × List String) :=
  match pop_last names with
  | none => none
  | some (name, rest) => some ({ client_socket := client_socket, name := name }, rest)

/-- Mirrors `send_message`: `client_socket.send(message.encode())`.  On a
failing handle the send raises; otherwise the bytes are appended to the
transport trace. -/
def send_message (sendFails : Socket → Bool) (client_socket : Socket)
    (message : String) (s : ServerState) : PyResult :=
  if sendFails client_socket then .exn .sendError s
  else .ok { s with writes := s.writes ++ [(client_socket, message)] }

/-- The replay line format `f"{message.sender.name}:{message.body}"`. -/
def fmtMsg (m : Message) : String :=
  m.sender.name ++ ":" ++ m.body

/-- The loop body of `send_message_history`: send each stored message in
order; an exception aborts the remaining sends. -/
def send_messages_list (sendFails : Socket → Bool) (client_socket : Socket) :
    List Message → ServerState → PyResult
  | [], s => .ok s
  | m :: ms, s =>
    (send_message sendFails client_socket (fmtMsg m) s).andThen
      (send_messages_list sendFails client_socket ms)

/-- Mirrors `send_message_history`: replay every message of `sent_messages`. -/
def send_message_history (sendFails : Socket → Bool) (client_socket : Socket)
    (s : ServerState) : PyResult :=
  send_messages_list sendFails client_socket s.sent_messages s

/-- Mirrors `get_user`: linear search of `users` by socket; `none` models the
`ValueError` (always caught by the callers we model). -/
def get_user (client_socket : Socket) (s : ServerState) : Option User :=
  s.users.find? (fun u => u.client_socket == client_socket)

/-- Mirrors `del_user`: `users.remove(user)` with the `ValueError` swallowed,
i.e. erase the first structurally-equal occurrence, no-op when absent. -/
def del_user (u : User) (s : ServerState) : ServerState :=
  { s with users := s.users.erase u }

/-- Mirrors `return_name`: `if name not in _names: _names.insert(0, name)`. -/
def return_name (name : String) (s : ServerState) : ServerState :=
  if name ∈ s.names then s else { s with names := name :: s.names }

/-- `client_socket.close()`; closing an already-closed socket is a no-op. -/
def close_socket (client_socket : Socket) (s : ServerState) : ServerState :=
  if client_socket ∈ s.closed then s
  else { s with closed := s.closed ++ [client_socket] }

/-- Mirrors `_unsubscribe_socket`: `selector.unregister` raises `KeyError`
when the handle is not registered; otherwise unregister and close. -/
def unsubscribe_socket (client_socket : Socket) (s : ServerState) : PyResult :=
  if client_socket ∈ s.registered then
    .ok (close_socket client_socket { s with registered := s.registered.erase client_socket })
  else .exn .keyError s

/-- Mirrors `_disconnect_socket`: look the user up (the `ValueError` branch is
caught), return the name, delete the user, then unsubscribe. -/
def disconnect_socket (client_socket : Socket) (s : ServerState) : PyResult :=
  match get_user client_socket s with
  | some u => unsubscribe_socket client_socket (del_user u (return_name u.name s))
  | none => unsubscribe_socket client_socket s

/-- `selector.register` raises `KeyError` on an already-registered handle. -/
def register_socket (client_socket : Socket) (s : ServerState) : PyResult :=
  if client_socket ∈ s.registered then .exn .keyError s
  else .ok { s with registered := s.registered ++ [client_socket] }

/-- The broadcast loop of `_get_message`: `for user_in_list in users:
send_message(...)`.  There is no `try` in the source: a failing send raises
out of the loop, aborting the remaining sends. -/
def broadcast_all (sendFails : Socket → Bool) (line : String) :
    List User → ServerState → PyResult
  | [], s => .ok s
  | u :: us, s =>
    (send_message sendFails u.client_socket line s).andThen
      (broadcast_all sendFails line us)

/-- One iteration of the `_accept_connection` generator body, for a freshly
accepted handle `client_socket`. -/
def accept_connection (sendFails : Socket → Bool) (client_socket : Socket)
    (s : ServerState) : PyResult :=
  if ¬ check_free_positions s then
    (send_message sendFails client_socket "Server is full. You will disconnect\n" s).andThen
      fun s1 => .ok (close_socket client_socket s1)
  else
    match create_user client_socket s.names with
    | none => .exn .indexError s
    | some (new_user, rest) =>
      let s1 := { s with names := rest, users := s.users ++ [new_user] }
      (send_message sendFails client_socket ("Your name: " ++ new_user.name ++ "\n") s1).andThen
        fun s2 => (send_message_history sendFails client_socket s2).andThen
          fun s3 => register_socket client_socket s3

/-- One iteration of the `_get_message` generator body for `client_socket`,
where `chunk` is what `recv(4096)` returned (`""` is a zero-length read). -/
def get_message_step (sendFails : Socket → Bool) (client_socket : Socket)
    (chunk : String) (s : ServerState) : PyResult :=
  if chunk = "" then disconnect_socket client_socket s
  else
    match get_user client_socket s with
    | none => disconnect_socket client_socket s
    | some user =>
      let s1 := { s with sent_messages := s.sent_messages ++ [{ body := chunk, sender := user }] }
      broadcast_all sendFails (user.name ++ ":" ++ chunk) s1.users s1

/-- An event dispatched by `event_loop`: either the listening socket is ready
(accept) or a registered client socket is ready (read one chunk). -/
inductive Op where
  | accept (sendFails : Socket → Bool) (client_socket : Socket)
  | read (sendFails : Socket → Bool) (client_socket : Socket) (chunk : String)

def stepOp (s : ServerState) : Op → PyResult
  | .accept sendFails client_socket => accept_connection sendFails client_socket s
  | .read sendFails client_socket chunk => get_message_step sendFails client_socket chunk s

/-- Run a sequence of events; an escaping exception stops the loop (it
crashes `event_loop`). -/
def runOps (s : ServerState) : List Op → PyResult
  | [] => .ok s
  | op :: ops =>
    match stepOp s op with
    | .ok s1 => runOps s1 ops
    | .exn e s1 => .exn e s1

/-- States reachable from startup by completed (non-raising) handler runs. -/
inductive Reachable : ServerState → Prop
  | init : Reachable initState
  | step {s s' : ServerState} {op : Op} :
      Reachable s → stepOp s op = .ok s' → Reachable s'

/-- The multiset of names that are either free in the pool or assigned to a
live session. -/
def ServerState.poolNames (s : ServerState) : List String :=
  s.names ++ s.users.map User.name

/-- Cuts a pending payload into the successive results of `recv(4096)`. -/
def recvChunks (l : List Char) : List (List Char) :=
  if h : l = [] then []
  else l.take 4096 :: recvChunks (l.drop 4096)
termination_by l.length
decreasing_by
  simp only [List.length_drop]
  have : l.length ≠ 0 := fun hl => h (List.length_eq_zero.mp hl)
  omega


/-! General lemmas: how each operation touches the state. -/

theorem andThen_ok (t : ServerState) (f : ServerState → PyResult) :
    (PyResult.ok t).andThen f = f t := rfl

theorem andThen_exn (e : PyErr) (t : ServerState) (f : ServerState → PyResult) :
    (PyResult.exn e t).andThen f = .exn e t := rfl

theorem send_message_shape (F : Socket → Bool) (k : Socket) (m : String) (s : ServerState) :
    ∃ w, (send_message F k m s).state = { s with writes := s.writes ++ w } := by
  unfold send_message
  split
  · exact ⟨[], by simp [PyResult.state]⟩
  · exact ⟨[(k, m)], rfl⟩

theorem andThen_shape {s : ServerState} {r : PyResult} {f : ServerState → PyResult}
    (hr : ∃ w, r.state = { s with writes := s.writes ++ w })
    (hf : ∀ t, ∃ w, (f t).state = { t with writes := t.writes ++ w }) :
    ∃ w, (r.andThen f).state = { s with writes := s.writes ++ w } := by
  cases r with
  | exn e t => exact hr
  | ok t =>
    obtain ⟨w1, hw1⟩ := hr
    simp only [PyResult.state] at hw1
    subst hw1
    obtain ⟨w2, hw2⟩ := hf _
    exact ⟨w1 ++ w2, by rw [andThen_ok, hw2]; simp [List.append_assoc]⟩

theorem send_messages_list_shape (F : Socket → Bool) (k : Socket) :
    ∀ (ms : List Message) (s : ServerState),
      ∃ w, (send_messages_list F k ms s).state = { s with writes := s.writes ++ w } := by
  intro ms
  induction ms with
  | nil => intro s; exact ⟨[], by simp [send_messages_list, PyResult.state]⟩
  | cons m ms ih =>
    intro s
    exact andThen_shape (send_message_shape F k (fmtMsg m) s) ih

theorem broadcast_all_shape (F : Socket → Bool) (line : String) :
    ∀ (us : List User) (s : ServerState),
      ∃ w, (broadcast_all F line us s).state = { s with writes := s.writes ++ w } := by
  intro us
  induction us with
  | nil => intro s; exact ⟨[], by simp [broadcast_all, PyResult.state]⟩
  | cons u us ih =>
    intro s
    exact andThen_shape (send_message_shape F u.client_socket line s) ih

theorem send_message_history_shape (F : Socket → Bool) (k : Socket) (s : ServerState) :
    ∃ w, (send_message_history F k s).state = { s with writes := s.writes ++ w } :=
  send_messages_list_shape F k s.sent_messages s

theorem register_socket_shape (k : Socket) (s : ServerState) :
    ∃ r, (register_socket k s).state = { s with registered := r } := by
  unfold register_socket
  split
  · exact ⟨s.registered, rfl⟩
  · exact ⟨s.registered ++ [k], rfl⟩

/-! Facts about `pop_last` (Python `list.pop()`). -/

theorem pop_last_eq_append :
    ∀ (l rest : List String) (x : String), pop_last l = some (x, rest) → l = rest ++ [x] := by
  intro l
  induction l with
  | nil => intro rest x h; simp [pop_last] at h
  | cons a l ih =>
    intro rest x h
    cases l with
    | nil =>
      simp [pop_last] at h
      simp [h.1, h.2.symm]
    | cons b l2 =>
      simp only [pop_last] at h
      cases hrec : pop_last (b :: l2) with
      | none => rw [hrec] at h; simp at h
      | some p =>
        rw [hrec] at h
        obtain ⟨z, r⟩ := p
        simp at h
        obtain ⟨hz, hrest⟩ := h
        have := ih r z hrec
        subst hz
        rw [← hrest, this]
        rfl

theorem pop_last_isSome_of_ne_nil (l : List String) (h : l ≠ []) :
    ∃ x rest, pop_last l = some (x, rest) := by
  cases l with
  | nil => exact absurd rfl h
  | cons a l =>
    cases l with
    | nil => exact ⟨a, [], rfl⟩
    | cons b l2 =>
      obtain ⟨x, rest, hx⟩ := pop_last_isSome_of_ne_nil (b :: l2) (by simp)
      exact ⟨x, a :: rest, by simp only [pop_last, hx]⟩

/-! Branch equations for the two handler bodies. -/

theorem accept_connection_full_eq (F : Socket → Bool) (k : Socket) (s : ServerState)
    (hch : check_free_positions s = false) :
    accept_connection F k s =
      (send_message F k "Server is full. You will disconnect\n" s).andThen
        fun s1 => .ok (close_socket k s1) := by
  unfold accept_connection
  rw [if_pos (by simp [hch])]

theorem accept_connection_join_eq (F : Socket → Bool) (k : Socket) (s : ServerState)
    (x : String) (rest : List String)
    (hch : check_free_positions s = true)
    (hcu : create_user k s.names = some ({ client_socket := k, name := x }, rest)) :
    accept_connection F k s =
      (send_message F k ("Your name: " ++ x ++ "\n")
          { s with names := rest, users := s.users ++ [{ client_socket := k, name := x }] }).andThen
        fun s2 => (send_message_history F k s2).andThen
          fun s3 => register_socket k s3 := by
  unfold accept_connection
  rw [if_neg (by simp [hch]), hcu]

theorem get_message_step_nil_eq (F : Socket → Bool) (k : Socket) (s : ServerState) :
    get_message_step F k "" s = disconnect_socket k s := by
  unfold get_message_step
  rw [if_pos rfl]

theorem get_message_step_nouser_eq (F : Socket → Bool) (k : Socket) (chunk : String)
    (s : ServerState) (hc : chunk ≠ "") (hu : get_user k s = none) :
    get_message_step F k chunk s = disconnect_socket k s := by
  unfold get_message_step
  rw [if_neg hc, hu]

theorem get_message_step_read_eq (F : Socket → Bool) (k : Socket) (chunk : String)
    (s : ServerState) (u : User) (hc : chunk ≠ "") (hu : get_user k s = some u) :
    get_message_step F k chunk s =
      broadcast_all F (u.name ++ ":" ++ chunk) s.users
        { s with sent_messages := s.sent_messages ++ [{ body := chunk, sender := u }] } := by
  unfold get_message_step
  rw [if_neg hc, hu]

/-! Every handler permutes the multiset of names split between the free pool
and the live sessions. -/

theorem check_free_positions_ne_nil {s : ServerState} (hch : check_free_positions s = true) :
    s.names ≠ [] := by
  intro hnil
  rw [check_free_positions, hnil] at hch
  simp at hch

theorem poolNames_close_socket (k : Socket) (s : ServerState) :
    (close_socket k s).poolNames = s.poolNames := by
  unfold close_socket
  split <;> rfl

theorem send_message_pool (F : Socket → Bool) (k : Socket) (m : String) (s : ServerState) :
    (send_message F k m s).state.poolNames = s.poolNames := by
  unfold send_message
  split <;> rfl

theorem andThen_pool (r : PyResult) (f : ServerState → PyResult)
    (hf : ∀ t, (f t).state.poolNames = t.poolNames) :
    (r.andThen f).state.poolNames = r.state.poolNames := by
  cases r with
  | exn e t => rfl
  | ok t => exact hf t

theorem send_messages_list_pool (F : Socket → Bool) (k : Socket) :
    ∀ (ms : List Message) (s : ServerState),
      (send_messages_list F k ms s).state.poolNames = s.poolNames := by
  intro ms
  induction ms with
  | nil => intro s; rfl
  | cons m ms ih =>
    intro s
    show ((send_message F k (fmtMsg m) s).andThen _).state.poolNames = _
    rw [andThen_pool _ _ ih, send_message_pool]

theorem send_message_history_pool (F : Socket → Bool) (k : Socket) (s : ServerState) :
    (send_message_history F k s).state.poolNames = s.poolNames :=
  send_messages_list_pool F k s.sent_messages s

theorem register_socket_pool (k : Socket) (s : ServerState) :
    (register_socket k s).state.poolNames = s.poolNames := by
  unfold register_socket
  split <;> rfl

theorem broadcast_all_pool (F : Socket → Bool) (line : String) :
    ∀ (us : List User) (s : ServerState),
      (broadcast_all F line us s).state.poolNames = s.poolNames := by
  intro us
  induction us with
  | nil => intro s; rfl
  | cons u us ih =>
    intro s
    show ((send_message F u.client_socket line s).andThen _).state.poolNames = _
    rw [andThen_pool _ _ ih, send_message_pool]

theorem accept_pool_perm (F : Socket → Bool) (k : Socket) (s : ServerState) :
    ((accept_connection F k s).state.poolNames).Perm s.poolNames := by
  cases hch : check_free_positions s with
  | false =>
    rw [accept_connection_full_eq F k s hch,
        andThen_pool _ (fun s1 => .ok (close_socket k s1)) (fun t => poolNames_close_socket k t),
        send_message_pool]
  | true =>
    obtain ⟨x, rest, hp⟩ := pop_last_isSome_of_ne_nil s.names (check_free_positions_ne_nil hch)
    have hcu : create_user k s.names = some ({ client_socket := k, name := x }, rest) := by
      unfold create_user
      rw [hp]
    have hsplit : s.names = rest ++ [x] := pop_last_eq_append s.names rest x hp
    rw [accept_connection_join_eq F k s x rest hch hcu,
        andThen_pool _ _ (fun t => by
          rw [andThen_pool _ _ (fun t2 => register_socket_pool k t2), send_message_history_pool]),
        send_message_pool]
    have hL : ServerState.poolNames
        { s with names := rest, users := s.users ++ [{ client_socket := k, name := x }] }
        = rest ++ (s.users.map User.name ++ [x]) := by
      simp [ServerState.poolNames]
    rw [hL, ServerState.poolNames, hsplit, List.append_assoc]
    exact List.Perm.append_left rest List.perm_append_comm

theorem unsubscribe_socket_pool (k : Socket) (s : ServerState) :
    (unsubscribe_socket k s).state.poolNames = s.poolNames := by
  unfold unsubscribe_socket
  split
  · simp only [PyResult.state]
    rw [poolNames_close_socket]
    rfl
  · rfl

theorem get_user_mem {k : Socket} {s : ServerState} {u : User}
    (hu : get_user k s = some u) : u ∈ s.users := by
  unfold get_user at hu
  exact List.mem_of_find?_eq_some hu

theorem disconnect_pool_perm (k : Socket) (s : ServerState)
    (hnd : s.poolNames.Nodup) :
    ((disconnect_socket k s).state.poolNames).Perm s.poolNames := by
  unfold disconnect_socket
  cases hu : get_user k s with
  | none =>
    rw [unsubscribe_socket_pool]
  | some u =>
    have hmem : u ∈ s.users := get_user_mem hu
    have hnotin : u.name ∉ s.names := by
      intro hin
      rw [ServerState.poolNames] at hnd
      exact (List.nodup_append.mp hnd).2.2 hin (List.mem_map_of_mem User.name hmem)
    have hL : ServerState.poolNames (del_user u (return_name u.name s))
        = u.name :: (s.names ++ (s.users.erase u).map User.name) := by
      unfold del_user return_name
      rw [if_neg hnotin]
      simp [ServerState.poolNames]
    rw [unsubscribe_socket_pool, hL, ServerState.poolNames]
    have h2 := (List.perm_cons_erase hmem).map User.name
    exact ((List.Perm.append_left s.names h2).trans List.perm_middle).symm

theorem get_message_pool_perm (F : Socket → Bool) (k : Socket) (chunk : String)
    (s : ServerState) (hnd : s.poolNames.Nodup) :
    ((get_message_step F k chunk s).state.poolNames).Perm s.poolNames := by
  by_cases hc : chunk = ""
  · subst hc
    rw [get_message_step_nil_eq]
    exact disconnect_pool_perm k s hnd
  · cases hu : get_user k s with
    | none =>
      rw [get_message_step_nouser_eq F k chunk s hc hu]
      exact disconnect_pool_perm k s hnd
    | some u =>
      rw [get_message_step_read_eq F k chunk s u hc hu, broadcast_all_pool]
      exact List.Perm.refl _

theorem stepOp_pool_perm (s : ServerState) (op : Op) (hnd : s.poolNames.Nodup) :
    ((stepOp s op).state.poolNames).Perm s.poolNames := by
  cases op with
  | accept F k => exact accept_pool_perm F k s
  | read F k chunk => exact get_message_pool_perm F k chunk s hnd

theorem initState_pool_nodup : initState.poolNames.Nodup := by decide

theorem reachable_inv {s : ServerState} (h : Reachable s) :
    s.poolNames.Perm initState.poolNames := by
  induction h with
  | init => exact List.Perm.refl _
  | @step s1 s2 op hr hstep ih =>
    have hnd : s1.poolNames.Nodup := ih.nodup_iff.mpr initState_pool_nodup
    have hperm := stepOp_pool_perm s1 op hnd
    have hs : (stepOp s1 op).state = s2 := by rw [hstep]; rfl
    rw [hs] at hperm
    exact hperm.trans ih

/-- C1.  Capacity invariant: in every reachable state, the number of names in
the pool plus the number of live sessions equals the configured capacity 4,
and no name is simultaneously free in the pool and assigned to a live
session. -/
theorem c1_capacity_invariant (s : ServerState) (h : Reachable s) :
    s.names.length + s.users.length = 4 ∧
      ∀ n ∈ s.names, ∀ u ∈ s.users, u.name ≠ n := by
  have hperm := reachable_inv h
  have hnd : s.poolNames.Nodup := hperm.nodup_iff.mpr initState_pool_nodup
  constructor
  · have hlen := hperm.length_eq
    have hsplit : s.poolNames.length = s.names.length + s.users.length := by
      simp [ServerState.poolNames]
    rw [hsplit, show initState.poolNames.length = 4 from rfl] at hlen
    exact hlen
  · intro n hn u hu heq
    rw [ServerState.poolNames] at hnd
    exact (List.nodup_append.mp hnd).2.2 hn (heq ▸ List.mem_map_of_mem User.name hu)

/-- Witness for C1 at the initial state. -/
theorem c1_capacity_invariant_witness :
    initState.names.length + initState.users.length = 4 ∧
      ∀ n ∈ initState.names, ∀ u ∈ initState.users, u.name ≠ n :=
  c1_capacity_invariant initState Reachable.init

/-! The transport trace and the history only ever grow. -/

theorem writes_mono_andThen {s : ServerState} {r : PyResult} {f : ServerState → PyResult}
    (hr : ∃ t, r.state.writes = s.writes ++ t)
    (hf : ∀ u, ∃ t, (f u).state.writes = u.writes ++ t) :
    ∃ t, (r.andThen f).state.writes = s.writes ++ t := by
  cases r with
  | exn e u => exact hr
  | ok u =>
    obtain ⟨t1, h1⟩ := hr
    obtain ⟨t2, h2⟩ := hf u
    simp only [PyResult.state] at h1
    exact ⟨t1 ++ t2, by rw [andThen_ok, h2, h1, List.append_assoc]⟩

theorem send_message_writes_mono (F : Socket → Bool) (k : Socket) (m : String) (s : ServerState) :
    ∃ t, (send_message F k m s).state.writes = s.writes ++ t := by
  obtain ⟨w, hw⟩ := send_message_shape F k m s
  exact ⟨w, by rw [hw]⟩

theorem send_message_history_writes_mono (F : Socket → Bool) (k : Socket) (s : ServerState) :
    ∃ t, (send_message_history F k s).state.writes = s.writes ++ t := by
  obtain ⟨w, hw⟩ := send_message_history_shape F k s
  exact ⟨w, by rw [hw]⟩

theorem broadcast_all_writes_mono (F : Socket → Bool) (line : String) (us : List User)
    (s : ServerState) :
    ∃ t, (broadcast_all F line us s).state.writes = s.writes ++ t := by
  obtain ⟨w, hw⟩ := broadcast_all_shape F line us s
  exact ⟨w, by rw [hw]⟩

theorem return_name_writes (n : String) (s : ServerState) :
    (return_name n s).writes = s.writes := by
  unfold return_name
  split <;> rfl

theorem close_socket_writes (k : Socket) (s : ServerState) :
    (close_socket k s).writes = s.writes := by
  unfold close_socket
  split <;> rfl

theorem unsubscribe_socket_writes (k : Socket) (s : ServerState) :
    (unsubscribe_socket k s).state.writes = s.writes := by
  unfold unsubscribe_socket
  split
  · simp only [PyResult.state]
    rw [close_socket_writes]
  · rfl

theorem disconnect_socket_writes (k : Socket) (s : ServerState) :
    (disconnect_socket k s).state.writes = s.writes := by
  unfold disconnect_socket
  cases hu : get_user k s with
  | none => rw [unsubscribe_socket_writes]
  | some u =>
    rw [unsubscribe_socket_writes]
    unfold del_user
    rw [return_name_writes]

theorem register_socket_writes (k : Socket) (s : ServerState) :
    (register_socket k s).state.writes = s.writes := by
  unfold register_socket
  split <;> rfl

theorem stepOp_writes_mono (s : ServerState) (op : Op) :
    ∃ t, (stepOp s op).state.writes = s.writes ++ t := by
  cases op with
  | accept F k =>
    show ∃ t, (accept_connection F k s).state.writes = s.writes ++ t
    cases hch : check_free_positions s with
    | false =>
      rw [accept_connection_full_eq F k s hch]
      refine writes_mono_andThen (send_message_writes_mono F k _ s) ?_
      intro u
      exact ⟨[], by simp [PyResult.state, close_socket_writes]⟩
    | true =>
      obtain ⟨x, rest, hp⟩ := pop_last_isSome_of_ne_nil s.names (check_free_positions_ne_nil hch)
      have hcu : create_user k s.names = some ({ client_socket := k, name := x }, rest) := by
        unfold create_user
        rw [hp]
      rw [accept_connection_join_eq F k s x rest hch hcu]
      refine writes_mono_andThen (send_message_writes_mono F k _ _) ?_
      intro u
      refine writes_mono_andThen (send_message_history_writes_mono F k u) ?_
      intro v
      exact ⟨[], by rw [register_socket_writes, List.append_nil]⟩
  | read F k chunk =>
    show ∃ t, (get_message_step F k chunk s).state.writes = s.writes ++ t
    by_cases hc : chunk = ""
    · subst hc
      rw [get_message_step_nil_eq, disconnect_socket_writes]
      exact ⟨[], by rw [List.append_nil]⟩
    · cases hu : get_user k s with
      | none =>
        rw [get_message_step_nouser_eq F k chunk s hc hu, disconnect_socket_writes]
        exact ⟨[], by rw [List.append_nil]⟩
      | some u =>
        rw [get_message_step_read_eq F k chunk s u hc hu]
        exact broadcast_all_writes_mono F _ s.users _

theorem andThen_sent {r : PyResult} (f : ServerState → PyResult)
    (hf : ∀ u, (f u).state.sent_messages = u.sent_messages) :
    (r.andThen f).state.sent_messages = r.state.sent_messages := by
  cases r with
  | exn e u => rfl
  | ok u => exact hf u

theorem send_message_sent (F : Socket → Bool) (k : Socket) (m : String) (s : ServerState) :
    (send_message F k m s).state.sent_messages = s.sent_messages := by
  unfold send_message
  split <;> rfl

theorem send_messages_list_sent (F : Socket → Bool) (k : Socket) :
    ∀ (ms : List Message) (s : ServerState),
      (send_messages_list F k ms s).state.sent_messages = s.sent_messages := by
  intro ms
  induction ms with
  | nil => intro s; rfl
  | cons m ms ih =>
    intro s
    show ((send_message F k (fmtMsg m) s).andThen _).state.sent_messages = _
    rw [andThen_sent _ ih, send_message_sent]

theorem send_message_history_sent (F : Socket → Bool) (k : Socket) (s : ServerState) :
    (send_message_history F k s).state.sent_messages = s.sent_messages :=
  send_messages_list_sent F k s.sent_messages s

theorem close_socket_sent (k : Socket) (s : ServerState) :
    (close_socket k s).sent_messages = s.sent_messages := by
  unfold close_socket
  split <;> rfl

theorem register_socket_sent (k : Socket) (s : ServerState) :
    (register_socket k s).state.sent_messages = s.sent_messages := by
  unfold register_socket
  split <;> rfl

theorem unsubscribe_socket_sent (k : Socket) (s : ServerState) :
    (unsubscribe_socket k s).state.sent_messages = s.sent_messages := by
  unfold unsubscribe_socket close_socket
  split
  · split <;> rfl
  · rfl

theorem disconnect_socket_sent (k : Socket) (s : ServerState) :
    (disconnect_socket k s).state.sent_messages = s.sent_messages := by
  unfold disconnect_socket
  cases hu : get_user k s with
  | none => rw [unsubscribe_socket_sent]
  | some u =>
    rw [unsubscribe_socket_sent]
    unfold del_user return_name
    split <;> rfl

theorem broadcast_all_sent (F : Socket → Bool) (line : String) :
    ∀ (us : List User) (s : ServerState),
      (broadcast_all F line us s).state.sent_messages = s.sent_messages := by
  intro us
  induction us with
  | nil => intro s; rfl
  | cons u us ih =>
    intro s
    show ((send_message F u.client_socket line s).andThen _).state.sent_messages = _
    rw [andThen_sent _ ih, send_message_sent]

theorem stepOp_sent_mono (s : ServerState) (op : Op) :
    ∃ t, (stepOp s op).state.sent_messages = s.sent_messages ++ t := by
  cases op with
  | accept F k =>
    show ∃ t, (accept_connection F k s).state.sent_messages = s.sent_messages ++ t
    refine ⟨[], ?_⟩
    rw [List.append_nil]
    cases hch : check_free_positions s with
    | false =>
      rw [accept_connection_full_eq F k s hch,
          andThen_sent (fun u => .ok (close_socket k u)) (fun u => close_socket_sent k u),
          send_message_sent]
    | true =>
      obtain ⟨x, rest, hp⟩ := pop_last_isSome_of_ne_nil s.names (check_free_positions_ne_nil hch)
      have hcu : create_user k s.names = some ({ client_socket := k, name := x }, rest) := by
        unfold create_user
        rw [hp]
      rw [accept_connection_join_eq F k s x rest hch hcu,
          andThen_sent (fun s2 => (send_message_history F k s2).andThen
              fun s3 => register_socket k s3)
            (fun u => by
              rw [andThen_sent (fun s3 => register_socket k s3)
                    (fun v => register_socket_sent k v),
                  send_message_history_sent]),
          send_message_sent]
  | read F k chunk =>
    show ∃ t, (get_message_step F k chunk s).state.sent_messages = s.sent_messages ++ t
    by_cases hc : chunk = ""
    · subst hc
      rw [get_message_step_nil_eq, disconnect_socket_sent]
      exact ⟨[], by rw [List.append_nil]⟩
    · cases hu : get_user k s with
      | none =>
        rw [get_message_step_nouser_eq F k chunk s hc hu, disconnect_socket_sent]
        exact ⟨[], by rw [List.append_nil]⟩
      | some u =>
        rw [get_message_step_read_eq F k chunk s u hc hu,
            broadcast_all_sent]
        exact ⟨[{ body := chunk, sender := u }], rfl⟩

theorem runOps_sent_mono (ops : List Op) :
    ∀ s : ServerState, ∃ t, (runOps s ops).state.sent_messages = s.sent_messages ++ t := by
  induction ops with
  | nil => intro s; exact ⟨[], by simp [runOps, PyResult.state]⟩
  | cons op ops ih =>
    intro s
    obtain ⟨t1, h1⟩ := stepOp_sent_mono s op
    cases h : stepOp s op with
    | ok s1 =>
      rw [h] at h1
      simp only [PyResult.state] at h1
      obtain ⟨t2, h2⟩ := ih s1
      refine ⟨t1 ++ t2, ?_⟩
      simp only [runOps, h]
      rw [h2, h1, List.append_assoc]
    | exn e s1 =>
      rw [h] at h1
      simp only [PyResult.state] at h1
      refine ⟨t1, ?_⟩
      simp only [runOps, h]
      exact h1

/-! The empty-pool branch of `_names.pop()` is dead code in the join path. -/

def isIndexError : PyResult → Bool
  | .exn .indexError _ => true
  | _ => false

theorem isIndexError_andThen (r : PyResult) (f : ServerState → PyResult)
    (hr : isIndexError r = false) (hf : ∀ t, isIndexError (f t) = false) :
    isIndexError (r.andThen f) = false := by
  cases r with
  | ok t => exact hf t
  | exn e t => exact hr

theorem isIndexError_send (F : Socket → Bool) (k : Socket) (m : String) (s : ServerState) :
    isIndexError (send_message F k m s) = false := by
  unfold send_message
  split <;> rfl

theorem isIndexError_list (F : Socket → Bool) (k : Socket) :
    ∀ (ms : List Message) (s : ServerState),
      isIndexError (send_messages_list F k ms s) = false := by
  intro ms
  induction ms with
  | nil => intro s; rfl
  | cons m ms ih =>
    intro s
    exact isIndexError_andThen _ _ (isIndexError_send F k (fmtMsg m) s) ih

theorem isIndexError_history (F : Socket → Bool) (k : Socket) (s : ServerState) :
    isIndexError (send_message_history F k s) = false :=
  isIndexError_list F k s.sent_messages s

theorem isIndexError_register (k : Socket) (s : ServerState) :
    isIndexError (register_socket k s) = false := by
  unfold register_socket
  split <;> rfl

/-- C9.  Capacity check guards allocation: the join handler checks
`check_free_positions` before `_names.pop()`, so the `IndexError` branch of
the pop (popping an empty list) is unreachable for every state and every
transport behaviour. -/
theorem c9_capacity_check_guards_allocation (F : Socket → Bool) (k : Socket) (s : ServerState) :
    isIndexError (accept_connection F k s) = false := by
  cases hch : check_free_positions s with
  | false =>
    rw [accept_connection_full_eq F k s hch]
    exact isIndexError_andThen _ _ (isIndexError_send F k _ s) (fun t => rfl)
  | true =>
    obtain ⟨x, rest, hp⟩ := pop_last_isSome_of_ne_nil s.names (check_free_positions_ne_nil hch)
    have hcu : create_user k s.names = some ({ client_socket := k, name := x }, rest) := by
      unfold create_user
      rw [hp]
    rw [accept_connection_join_eq F k s x rest hch hcu]
    exact isIndexError_andThen _ _ (isIndexError_send F k _ _)
      (fun t => isIndexError_andThen _ _ (isIndexError_history F k t)
        (fun v => isIndexError_register k v))

/-! Happy-path equations for the transport writes. -/

theorem send_message_ok (F : Socket → Bool) (k : Socket) (m : String) (s : ServerState)
    (h : F k = false) :
    send_message F k m s = .ok { s with writes := s.writes ++ [(k, m)] } := by
  unfold send_message
  rw [h]
  rfl

theorem send_messages_list_ok (F : Socket → Bool) (k : Socket) (h : F k = false) :
    ∀ (ms : List Message) (s : ServerState),
      send_messages_list F k ms s
        = .ok { s with writes := s.writes ++ ms.map (fun m => (k, fmtMsg m)) } := by
  intro ms
  induction ms with
  | nil => intro s; simp [send_messages_list]
  | cons m ms ih =>
    intro s
    show (send_message F k (fmtMsg m) s).andThen _ = _
    rw [send_message_ok F k _ s h, andThen_ok, ih]
    simp [List.append_assoc]

theorem send_message_history_ok (F : Socket → Bool) (k : Socket) (s : ServerState)
    (h : F k = false) :
    send_message_history F k s
      = .ok { s with writes := s.writes ++ s.sent_messages.map (fun m => (k, fmtMsg m)) } :=
  send_messages_list_ok F k h s.sent_messages s

theorem register_socket_ok (k : Socket) (s : ServerState) (h : k ∉ s.registered) :
    register_socket k s = .ok { s with registered := s.registered ++ [k] } := by
  unfold register_socket
  rw [if_neg h]

theorem close_socket_shape (k : Socket) (s : ServerState) :
    ∃ c, close_socket k s = { s with closed := c } := by
  unfold close_socket
  split
  · exact ⟨s.closed, rfl⟩
  · exact ⟨s.closed ++ [k], rfl⟩

theorem close_socket_mem (k : Socket) (s : ServerState) :
    k ∈ (close_socket k s).closed := by
  unfold close_socket
  split
  · assumption
  · simp

/-- C5.  Full-server rejection: a join attempt with an empty name pool writes
exactly the fixed rejection line to the new handle and closes it; the pool,
the user registry, the history and the read subscriptions are all unchanged. -/
theorem c5_full_server_rejection (F : Socket → Bool) (k : Socket) (s : ServerState)
    (hempty : s.names = []) (hok : F k = false) :
    ∃ s', accept_connection F k s = .ok s' ∧
      s'.names = s.names ∧ s'.users = s.users ∧ s'.sent_messages = s.sent_messages ∧
      s'.registered = s.registered ∧
      s'.writes = s.writes ++ [(k, "Server is full. You will disconnect\n")] ∧
      k ∈ s'.closed := by
  have hch : check_free_positions s = false := by
    rw [check_free_positions, hempty]
    rfl
  rw [accept_connection_full_eq F k s hch, send_message_ok F k _ s hok, andThen_ok]
  obtain ⟨c, hc⟩ := close_socket_shape k
    { s with writes := s.writes ++ [(k, "Server is full. You will disconnect\n")] }
  refine ⟨close_socket k
      { s with writes := s.writes ++ [(k, "Server is full. You will disconnect\n")] },
    rfl, ?_, ?_, ?_, ?_, ?_, close_socket_mem k _⟩ <;> rw [hc]

/-- A state whose name pool has been exhausted, used to witness C5. -/
def emptyPoolState : ServerState :=
  { initState with names := [] }

/-- Witness for C5 at a concrete full-server state. -/
theorem c5_full_server_rejection_witness :
    ∃ s', accept_connection (fun _ => false) 7 emptyPoolState = .ok s' ∧
      s'.names = emptyPoolState.names ∧ s'.users = emptyPoolState.users ∧
      s'.sent_messages = emptyPoolState.sent_messages ∧
      s'.registered = emptyPoolState.registered ∧
      s'.writes = emptyPoolState.writes ++ [(7, "Server is full. You will disconnect\n")] ∧
      7 ∈ s'.closed :=
  c5_full_server_rejection (fun _ => false) 7 emptyPoolState rfl rfl

/-- Characterisation of a fully successful join: capacity available, all
writes to the new handle succeed, and the handle is not yet registered. -/
theorem accept_join_ok (F : Socket → Bool) (k : Socket) (s : ServerState)
    (x : String) (rest : List String)
    (hpop : pop_last s.names = some (x, rest))
    (hnf : F k = false)
    (hreg : k ∉ s.registered) :
    accept_connection F k s = .ok
      { s with names := rest,
               users := s.users ++ [{ client_socket := k, name := x }],
               registered := s.registered ++ [k],
               writes := s.writes ++ (k, "Your name: " ++ x ++ "\n") ::
                 s.sent_messages.map (fun m => (k, fmtMsg m)) } := by
  have hch : check_free_positions s = true := by
    rw [check_free_positions, pop_last_eq_append s.names rest x hpop]
    simp
  have hcu : create_user k s.names = some ({ client_socket := k, name := x }, rest) := by
    unfold create_user
    rw [hpop]
  have h1 : send_message F k ("Your name: " ++ x ++ "\n")
      { s with names := rest, users := s.users ++ [{ client_socket := k, name := x }] }
      = .ok { s with
              names := rest
              users := s.users ++ [{ client_socket := k, name := x }]
              writes := s.writes ++ [(k, "Your name: " ++ x ++ "\n")] } :=
    send_message_ok F k _ _ hnf
  have h2 : send_message_history F k
      { s with
        names := rest
        users := s.users ++ [{ client_socket := k, name := x }]
        writes := s.writes ++ [(k, "Your name: " ++ x ++ "\n")] }
      = .ok { s with
              names := rest
              users := s.users ++ [{ client_socket := k, name := x }]
              writes := (s.writes ++ [(k, "Your name: " ++ x ++ "\n")])
                ++ s.sent_messages.map (fun m => (k, fmtMsg m)) } :=
    send_message_history_ok F k _ hnf
  have h3 : register_socket k
      { s with
        names := rest
        users := s.users ++ [{ client_socket := k, name := x }]
        writes := (s.writes ++ [(k, "Your name: " ++ x ++ "\n")])
          ++ s.sent_messages.map (fun m => (k, fmtMsg m)) }
      = .ok { s with
              names := rest
              users := s.users ++ [{ client_socket := k, name := x }]
              registered := s.registered ++ [k]
              writes := (s.writes ++ [(k, "Your name: " ++ x ++ "\n")])
                ++ s.sent_messages.map (fun m => (k, fmtMsg m)) } :=
    register_socket_ok k _ hreg
  rw [accept_connection_join_eq F k s x rest hch hcu, h1, andThen_ok, h2, andThen_ok, h3]
  simp [List.append_assoc]

/-- C7.  Replay completeness: a successful join whose pool pop yields `x`
writes to the new handle the greeting followed by every stored message, in
original append order, each formatted by `fmtMsg`; and every handler can only
append to the transport trace, so anything broadcast after the join appears
strictly after the replayed lines. -/
theorem c7_replay_completeness (F : Socket → Bool) (k : Socket) (s : ServerState)
    (x : String) (rest : List String)
    (hpop : pop_last s.names = some (x, rest))
    (hnf : F k = false)
    (hreg : k ∉ s.registered) :
    accept_connection F k s = .ok
      { s with names := rest,
               users := s.users ++ [{ client_socket := k, name := x }],
               registered := s.registered ++ [k],
               writes := s.writes ++ (k, "Your name: " ++ x ++ "\n") ::
                 s.sent_messages.map (fun m => (k, fmtMsg m)) } ∧
    ∀ (s2 : ServerState) (op : Op), ∃ t, (stepOp s2 op).state.writes = s2.writes ++ t :=
  ⟨accept_join_ok F k s x rest hpop hnf hreg, fun s2 op => stepOp_writes_mono s2 op⟩

/-- A state holding one prior message, used to witness C7. -/
def replayState : ServerState :=
  { initState with
    sent_messages := [{ body := "hi\n", sender := { client_socket := 1, name := "Bella" } }] }

/-- Witness for C7 at a concrete one-message history. -/
theorem c7_replay_completeness_witness :
    (accept_connection (fun _ => false) 9 replayState = .ok
      { replayState with
        names := ["John", "Jill", "Smith"]
        users := replayState.users ++ [{ client_socket := 9, name := "Bella" }]
        registered := replayState.registered ++ [9]
        writes := replayState.writes ++ (9, "Your name: " ++ "Bella" ++ "\n") ::
          replayState.sent_messages.map (fun m => (9, fmtMsg m)) } ∧
    ∀ (s2 : ServerState) (op : Op), ∃ t, (stepOp s2 op).state.writes = s2.writes ++ t) :=
  c7_replay_completeness (fun _ => false) 9 replayState "Bella" ["John", "Jill", "Smith"]
    (by decide) rfl (by decide)

/-- C8.  Sender-tag stability: the formatted line of every recorded message is
fixed once the message is appended — running any further events (leaves,
name reuse, new joins included) only extends the formatted history — and the
message captured by a read event carries the sender's display name exactly as
it is at receive time. -/
theorem c8_sender_tag_stability (s : ServerState) (ops : List Op)
    (F : Socket → Bool) (k : Socket) (chunk : String) (s2 : ServerState) (u : User)
    (hc : chunk ≠ "") (hu : get_user k s2 = some u) :
    (∃ t, (runOps s ops).state.sent_messages.map fmtMsg = s.sent_messages.map fmtMsg ++ t) ∧
    (get_message_step F k chunk s2).state.sent_messages
      = s2.sent_messages ++ [{ body := chunk, sender := u }] := by
  constructor
  · obtain ⟨t, ht⟩ := runOps_sent_mono ops s
    exact ⟨t.map fmtMsg, by rw [ht, List.map_append]⟩
  · rw [get_message_step_read_eq F k chunk s2 u hc hu, broadcast_all_sent]

/-- A state with one live user and an empty pool, used as a concrete witness
state. -/
def oneUserState : ServerState :=
  { names := [], users := [{ client_socket := 1, name := "John" }], sent_messages := [],
    registered := [1], writes := [], closed := [] }

/-- Witness for C8 at a concrete run and read event. -/
theorem c8_sender_tag_stability_witness :
    (∃ t, (runOps initState [Op.accept (fun _ => false) 1]).state.sent_messages.map fmtMsg
        = initState.sent_messages.map fmtMsg ++ t) ∧
    (get_message_step (fun _ => false) 1 "hi\n" oneUserState).state.sent_messages
      = oneUserState.sent_messages
        ++ [{ body := "hi\n", sender := { client_socket := 1, name := "John" } }] :=
  c8_sender_tag_stability initState [Op.accept (fun _ => false) 1] (fun _ => false) 1 "hi\n"
    oneUserState { client_socket := 1, name := "John" } (by decide) (by decide)

/-! C6: join atomicity fails on the code — a failed greeting leaves a
half-joined session behind. -/

/-- C6 counterexample: joining handle 1 on a failing transport raises out of
the handler, yet the popped name is NOT released (three names remain in the
pool), the new session IS left in the registry, and the handle is not
subscribed — contradicting "any failure between those steps releases the
allocated name and leaves the registry unchanged". -/
theorem c6_join_atomicity_cex :
    (accept_connection (fun j => j == 1) 1 initState).isOk = false ∧
    (accept_connection (fun j => j == 1) 1 initState).state.names
      = ["John", "Jill", "Smith"] ∧
    (accept_connection (fun j => j == 1) 1 initState).state.users
      = [{ client_socket := 1, name := "Bella" }] ∧
    (accept_connection (fun j => j == 1) 1 initState).state.registered = [] := by
  decide

/-- C6 amended: when the greeting write fails, the join attempt raises
`sendError`; the allocated name stays consumed, the half-joined session stays
in the registry, and the handle is never subscribed (the registered set is
unchanged). -/
theorem c6_join_failure_partial (F : Socket → Bool) (k : Socket) (s : ServerState)
    (x : String) (rest : List String)
    (hpop : pop_last s.names = some (x, rest))
    (hfail : F k = true) :
    accept_connection F k s = .exn .sendError
      { s with names := rest, users := s.users ++ [{ client_socket := k, name := x }] } := by
  have hch : check_free_positions s = true := by
    rw [check_free_positions, pop_last_eq_append s.names rest x hpop]
    simp
  have hcu : create_user k s.names = some ({ client_socket := k, name := x }, rest) := by
    unfold create_user
    rw [hpop]
  have hsend : send_message F k ("Your name: " ++ x ++ "\n")
      { s with names := rest, users := s.users ++ [{ client_socket := k, name := x }] }
      = .exn .sendError
        { s with names := rest, users := s.users ++ [{ client_socket := k, name := x }] } := by
    unfold send_message
    rw [hfail]
    rfl
  rw [accept_connection_join_eq F k s x rest hch hcu, hsend, andThen_exn]

/-- Witness for the amended C6 at a concrete state. -/
theorem c6_join_failure_partial_witness :
    accept_connection (fun j => j == 1) 1 initState = .exn .sendError
      { initState with
        names := ["John", "Jill", "Smith"]
        users := initState.users ++ [{ client_socket := 1, name := "Bella" }] } :=
  c6_join_failure_partial (fun j => j == 1) 1 initState "Bella" ["John", "Jill", "Smith"]
    (by decide) rfl

/-! C2: broadcast failures are NOT isolated — there is no `try` around the
send loop, so one failing socket aborts delivery to everyone after it. -/

/-- Three live sessions on handles 1, 2, 3; the pool holds the one remaining
name. -/
def threeUserState : ServerState :=
  { names := ["John"]
    users := [{ client_socket := 1, name := "Bella" }, { client_socket := 2, name := "Smith" },
              { client_socket := 3, name := "Jill" }]
    sent_messages := []
    registered := [1, 2, 3]
    writes := []
    closed := [] }

/-- C2 counterexample: handle 1 sends a line while writes to handle 2 fail.
The handler raises instead of catching; handle 3 never receives the line, and
the failing session 2 is neither unsubscribed nor removed — contradicting "a
write failure on one session does not abort delivery to the remaining
sessions ... only the affected session is scheduled for lifecycle
teardown". -/
theorem c2_broadcast_failure_cex :
    (get_message_step (fun j => j == 2) 1 "hi\n" threeUserState).isOk = false ∧
    (3, "Bella:hi\n") ∉ (get_message_step (fun j => j == 2) 1 "hi\n" threeUserState).state.writes ∧
    (get_message_step (fun j => j == 2) 1 "hi\n" threeUserState).state.registered = [1, 2, 3] ∧
    (get_message_step (fun j => j == 2) 1 "hi\n" threeUserState).state.users
      = threeUserState.users := by
  decide

theorem broadcast_all_exn (F : Socket → Bool) (line : String) (bad : User) (post : List User)
    (hbad : F bad.client_socket = true) :
    ∀ (pre : List User) (s : ServerState), (∀ v ∈ pre, F v.client_socket = false) →
      broadcast_all F line (pre ++ bad :: post) s = .exn .sendError
        { s with writes := s.writes ++ pre.map (fun v => (v.client_socket, line)) } := by
  intro pre
  induction pre with
  | nil =>
    intro s hpre
    show (send_message F bad.client_socket line s).andThen _ = _
    have hsend : send_message F bad.client_socket line s = .exn .sendError s := by
      unfold send_message
      rw [hbad]
      rfl
    rw [hsend, andThen_exn]
    simp
  | cons v pre ih =>
    intro s hpre
    show (send_message F v.client_socket line s).andThen _ = _
    rw [send_message_ok F v.client_socket line s (hpre v (by simp)), andThen_ok]
    show broadcast_all F line (pre ++ bad :: post)
        { s with writes := s.writes ++ [(v.client_socket, line)] } = _
    rw [ih _ (fun w hw => hpre w (by simp [hw]))]
    simp [List.append_assoc]

/-- C2 amended: during the broadcast of a received line, the sessions BEFORE
the first failing one (in registry order) receive it, the failing session and
every later session receive nothing, the exception escapes the handler, and
no teardown happens — registry, subscriptions and pool are all left as they
were (the message itself is already appended to the history). -/
theorem c2_broadcast_failure_aborts (F : Socket → Bool) (k : Socket) (chunk : String)
    (s : ServerState) (u : User) (pre : List User) (bad : User) (post : List User)
    (hc : chunk ≠ "") (hu : get_user k s = some u)
    (husers : s.users = pre ++ bad :: post)
    (hpre : ∀ v ∈ pre, F v.client_socket = false)
    (hbad : F bad.client_socket = true) :
    get_message_step F k chunk s = .exn .sendError
      { s with
        sent_messages := s.sent_messages ++ [{ body := chunk, sender := u }]
        writes := s.writes ++ pre.map (fun v => (v.client_socket, u.name ++ ":" ++ chunk)) } := by
  rw [get_message_step_read_eq F k chunk s u hc hu, husers]
  exact broadcast_all_exn F (u.name ++ ":" ++ chunk) bad post hbad pre _ hpre

/-- Witness for the amended C2 at the concrete three-user state. -/
theorem c2_broadcast_failure_aborts_witness :
    get_message_step (fun j => j == 2) 1 "hi\n" threeUserState = .exn .sendError
      { threeUserState with
        sent_messages := threeUserState.sent_messages
          ++ [{ body := "hi\n", sender := { client_socket := 1, name := "Bella" } }]
        writes := threeUserState.writes ++
          [({ client_socket := 1, name := "Bella" } : User)].map
            (fun v => (v.client_socket, "Bella" ++ ":" ++ "hi\n")) } :=
  c2_broadcast_failure_aborts (fun j => j == 2) 1 "hi\n" threeUserState
    { client_socket := 1, name := "Bella" }
    [{ client_socket := 1, name := "Bella" }]
    { client_socket := 2, name := "Smith" }
    [{ client_socket := 3, name := "Jill" }]
    (by decide) (by decide) rfl (by decide) rfl

/-! C4: leave is NOT fully idempotent — the registry lookup tolerates a
missing user, but `selector.unregister` raises `KeyError` on the second
call. -/

/-- The state right after handle 1 joined from startup (name "Bella"
allocated, subscribed, greeted). -/
def joinedState : ServerState :=
  { names := ["John", "Jill", "Smith"]
    users := [{ client_socket := 1, name := "Bella" }]
    sent_messages := []
    registered := [1]
    writes := [(1, "Your name: Bella\n")]
    closed := [] }

/-- C4 counterexample: the first leave of handle 1 completes, but invoking
leave a second time for the same handle raises (the selector `unregister` of
an unregistered handle is a `KeyError`) — contradicting "it does not
crash". -/
theorem c4_leave_idempotence_cex :
    (disconnect_socket 1 joinedState).isOk = true ∧
    (disconnect_socket 1 (disconnect_socket 1 joinedState).state).isOk = false := by
  decide

theorem unsubscribe_ok_elim {k : Socket} {s s1 : ServerState}
    (h : unsubscribe_socket k s = .ok s1) :
    k ∈ s.registered ∧ s1 = close_socket k { s with registered := s.registered.erase k } := by
  unfold unsubscribe_socket at h
  split at h
  · refine ⟨by assumption, ?_⟩
    simp only [PyResult.ok.injEq] at h
    exact h.symm
  · exact absurd h (by simp)

theorem return_name_users (n : String) (s : ServerState) :
    (return_name n s).users = s.users := by
  unfold return_name
  split <;> rfl

theorem return_name_registered (n : String) (s : ServerState) :
    (return_name n s).registered = s.registered := by
  unfold return_name
  split <;> rfl

theorem get_user_sock {k : Socket} {s : ServerState} {u : User}
    (hu : get_user k s = some u) : u.client_socket = k := by
  unfold get_user at hu
  have := List.find?_some hu
  simpa using this

/-- C4 amended: under sane bookkeeping (no duplicate user entries, at most
one session per handle, at most one selector registration per handle), a
second leave of the same handle releases nothing and changes nothing — the
state it raises from is exactly the state the first leave produced — but it
does raise `KeyError` instead of returning, because the handle is no longer
registered in the selector. -/
theorem c4_leave_second_raises (k : Socket) (s s1 : ServerState)
    (hnd : s.users.Nodup)
    (huniq : ∀ u ∈ s.users, ∀ v ∈ s.users,
      u.client_socket = k → v.client_socket = k → u = v)
    (hreg : s.registered.count k ≤ 1)
    (h1 : disconnect_socket k s = .ok s1) :
    disconnect_socket k s1 = .exn .keyError s1 := by
  unfold disconnect_socket at h1
  have hS1reg : s1.registered = s.registered.erase k ∧
      (get_user k s1 = none) := by
    cases hu : get_user k s with
    | some u =>
      rw [hu] at h1
      obtain ⟨hk, hs1⟩ := unsubscribe_ok_elim h1
      obtain ⟨c, hc⟩ := close_socket_shape k
        { del_user u (return_name u.name s) with
          registered := (del_user u (return_name u.name s)).registered.erase k }
      rw [hc] at hs1
      subst hs1
      constructor
      · show (del_user u (return_name u.name s)).registered.erase k = _
        unfold del_user
        rw [return_name_registered]
      · show List.find? _ (del_user u (return_name u.name s)).users = none
        unfold del_user
        rw [return_name_users]
        rw [List.find?_eq_none]
        intro w hw hwk
        have hwmem : w ∈ s.users := List.mem_of_mem_erase hw
        have hweq : w.client_socket = k := by simpa using hwk
        have : w = u := huniq w hwmem u (get_user_mem hu) hweq (get_user_sock hu)
        subst this
        exact (hnd.not_mem_erase) hw
    | none =>
      rw [hu] at h1
      obtain ⟨hk, hs1⟩ := unsubscribe_ok_elim h1
      obtain ⟨c, hc⟩ := close_socket_shape k { s with registered := s.registered.erase k }
      rw [hc] at hs1
      subst hs1
      refine ⟨rfl, ?_⟩
      show List.find? _ s.users = none
      unfold get_user at hu
      exact hu
  obtain ⟨hr1, hg1⟩ := hS1reg
  have hnotreg : k ∉ s1.registered := by
    rw [hr1]
    intro hmem
    have := List.count_erase_self k s.registered
    have hpos := List.count_pos_iff.mpr hmem
    rw [List.count_erase_self] at hpos
    omega
  unfold disconnect_socket
  rw [hg1]
  unfold unsubscribe_socket
  rw [if_neg hnotreg]

/-- The state after handle 1 (name "Bella") has left `joinedState`. -/
def leftState : ServerState :=
  { names := ["Bella", "John", "Jill", "Smith"]
    users := []
    sent_messages := []
    registered := []
    writes := [(1, "Your name: Bella\n")]
    closed := [1] }

/-- Witness for the amended C4 at the concrete joined state. -/
theorem c4_leave_second_raises_witness :
    disconnect_socket 1 leftState = .exn .keyError leftState :=
  c4_leave_second_raises 1 joinedState leftState (by decide) (by decide) (by decide) (by decide)

/-! C3: reclaim goes to the FRONT of the pool (`insert(0, name)`) while
allocation pops the BACK (`pop()`), so the most-recently-reclaimed name is
NOT generally the next one allocated. -/

/-- C3 counterexample: from startup, client 1 joins (gets "Bella") and
disconnects; "Bella" is the most recently reclaimed name (it sits at the
front of the pool), yet the next joiner is greeted with "Your name: Smith\n",
not "Your name: Bella\n". -/
theorem c3_lifo_reuse_cex :
    (get_message_step (fun _ => false) 1 "" joinedState).state.names
      = ["Bella", "John", "Jill", "Smith"] ∧
    (accept_connection (fun _ => false) 2
        (get_message_step (fun _ => false) 1 "" joinedState).state).state.writes
      = joinedState.writes ++ [(2, "Your name: Smith\n")] ∧
    ("Smith" : String) ≠ "Bella" := by
  decide

/-- C3 amended: the most-recently-reclaimed name is allocated next exactly
when it is at the back of the pool — in particular whenever the pool was
empty at reclaim time.  A client disconnecting from a full server therefore
does get its name handed to the next joiner: the leave completes, the pool
becomes exactly the reclaimed name, and the next join's first write is the
greeting carrying that name. -/
theorem c3_name_reuse_after_empty_pool (F F2 : Socket → Bool) (k k2 : Socket)
    (s : ServerState) (u : User)
    (hempty : s.names = [])
    (hu : get_user k s = some u)
    (hreg : k ∈ s.registered)
    (hfresh : k2 ∉ s.registered)
    (hnf : F2 k2 = false) :
    ∃ s1 s2 t, get_message_step F k "" s = .ok s1 ∧
      s1.names = [u.name] ∧
      accept_connection F2 k2 s1 = .ok s2 ∧
      s2.writes = s1.writes ++ (k2, "Your name: " ++ u.name ++ "\n") :: t := by
  have hdisc : get_message_step F k "" s = .ok (close_socket k
      { s with names := [u.name], users := s.users.erase u,
               registered := s.registered.erase k }) := by
    rw [get_message_step_nil_eq]
    unfold disconnect_socket
    rw [hu]
    show unsubscribe_socket k (del_user u (return_name u.name s)) = _
    unfold return_name
    rw [hempty, if_neg (List.not_mem_nil u.name)]
    unfold del_user unsubscribe_socket
    rw [if_pos hreg]
  obtain ⟨c, hc⟩ := close_socket_shape k
    { s with names := [u.name], users := s.users.erase u,
             registered := s.registered.erase k }
  rw [hc] at hdisc
  have hfresh1 : k2 ∉ s.registered.erase k := fun hmem => hfresh (List.mem_of_mem_erase hmem)
  have hacc := accept_join_ok F2 k2
    { s with names := [u.name], users := s.users.erase u,
             registered := s.registered.erase k, closed := c }
    u.name [] rfl hnf hfresh1
  exact ⟨_, _, _, hdisc, rfl, hacc, rfl⟩

/-- Witness for the amended C3: a disconnect from a full single-user server
reclaims "John", and the next joiner is greeted "Your name: John\n". -/
theorem c3_name_reuse_after_empty_pool_witness :
    ∃ s1 s2 t, get_message_step (fun _ => false) 1 "" oneUserState = .ok s1 ∧
      s1.names = ["John"] ∧
      accept_connection (fun _ => false) 2 s1 = .ok s2 ∧
      s2.writes = s1.writes ++ (2, "Your name: " ++ "John" ++ "\n") :: t :=
  c3_name_reuse_after_empty_pool (fun _ => false) (fun _ => false) 1 2 oneUserState
    { client_socket := 1, name := "John" } rfl (by decide) (by decide) (by decide) rfl

/-! C10: each read event is one `recv(4096)`, so message bodies come from at
most 4096 bytes and longer payloads arrive as several messages. -/

theorem recvChunks_nil : recvChunks [] = [] := by
  unfold recvChunks
  simp

theorem recvChunks_cons (l : List Char) (h : l ≠ []) :
    recvChunks l = l.take 4096 :: recvChunks (l.drop 4096) := by
  conv_lhs => unfold recvChunks
  rw [dif_neg h]

theorem recvChunks_join : ∀ (n : Nat) (l : List Char), l.length ≤ n →
    (recvChunks l).flatten = l := by
  intro n
  induction n with
  | zero =>
    intro l h
    have hl : l = [] := List.length_eq_zero.mp (Nat.le_zero.mp h)
    subst hl
    rw [recvChunks_nil]
    rfl
  | succ n ih =>
    intro l h
    by_cases hl : l = []
    · subst hl
      rw [recvChunks_nil]
      rfl
    · rw [recvChunks_cons l hl]
      have hpos : 0 < l.length := List.length_pos.mpr hl
      have hlen : (l.drop 4096).length ≤ n := by
        rw [List.length_drop]
        omega
      rw [List.flatten_cons, ih (l.drop 4096) hlen]
      exact List.take_append_drop 4096 l

theorem recvChunks_bounded : ∀ (n : Nat) (l : List Char), l.length ≤ n →
    ∀ c ∈ recvChunks l, c.length ≤ 4096 := by
  intro n
  induction n with
  | zero =>
    intro l h c hc
    have hl : l = [] := List.length_eq_zero.mp (Nat.le_zero.mp h)
    subst hl
    rw [recvChunks_nil] at hc
    exact absurd hc (List.not_mem_nil c)
  | succ n ih =>
    intro l h c hc
    by_cases hl : l = []
    · subst hl
      rw [recvChunks_nil] at hc
      exact absurd hc (List.not_mem_nil c)
    · rw [recvChunks_cons l hl] at hc
      rcases List.mem_cons.mp hc with hc1 | hc2
      · subst hc1
        rw [List.length_take]
        exact Nat.min_le_left _ _
      · have hpos : 0 < l.length := List.length_pos.mpr hl
        have hlen : (l.drop 4096).length ≤ n := by
          rw [List.length_drop]
          omega
        exact ih (l.drop 4096) hlen c hc2

theorem recvChunks_several (l : List Char) (h : 4096 < l.length) :
    2 ≤ (recvChunks l).length := by
  have h1 : l ≠ [] := by
    intro he
    subst he
    simp at h
  have h2 : l.drop 4096 ≠ [] := by
    intro he
    have := congrArg List.length he
    rw [List.length_drop] at this
    simp at this
    omega
  rw [recvChunks_cons l h1, recvChunks_cons _ h2]
  simp

/-- C10.  Bounded single read: splitting a pending payload into the
successive results of `recv(4096)` yields chunks of at most 4096 bytes whose
concatenation is the whole payload — a payload longer than 4096 bytes arrives
as at least two chunks — and each read event appends exactly ONE message to
the history, whose body is exactly the one chunk that `recv` returned. -/
theorem c10_bounded_single_read (payload : List Char) (F : Socket → Bool) (k : Socket)
    (chunk : String) (s : ServerState) (u : User)
    (hc : chunk ≠ "") (hu : get_user k s = some u) :
    (∀ c ∈ recvChunks payload, c.length ≤ 4096) ∧
    (recvChunks payload).flatten = payload ∧
    (4096 < payload.length → 2 ≤ (recvChunks payload).length) ∧
    (get_message_step F k chunk s).state.sent_messages
      = s.sent_messages ++ [{ body := chunk, sender := u }] := by
  refine ⟨recvChunks_bounded payload.length payload (Nat.le_refl _),
          recvChunks_join payload.length payload (Nat.le_refl _),
          fun h => recvChunks_several payload h, ?_⟩
  rw [get_message_step_read_eq F k chunk s u hc hu, broadcast_all_sent]

/-- Witness for C10 at a 5000-byte payload and a concrete read event. -/
theorem c10_bounded_single_read_witness :
    (∀ c ∈ recvChunks (List.replicate 5000 'a'), c.length ≤ 4096) ∧
    (recvChunks (List.replicate 5000 'a')).flatten = List.replicate 5000 'a' ∧
    (4096 < (List.replicate 5000 'a').length →
      2 ≤ (recvChunks (List.replicate 5000 'a')).length) ∧
    (get_message_step (fun _ => false) 1 "hi\n" oneUserState).state.sent_messages
      = oneUserState.sent_messages
        ++ [{ body := "hi\n", sender := { client_socket := 1, name := "John" } }] :=
  c10_bounded_single_read (List.replicate 5000 'a') (fun _ => false) 1 "hi\n" oneUserState
    { client_socket := 1, name := "John" } (by decide) (by decide)
